import Mathlib

/-!
Verification of the core logic of the "Last Edit Location" note-taking plugin
(source: `src/main.ts`, version 0.1.4.0).

The TypeScript source is shallowly embedded: strings are Lean `String`s with the
JavaScript string methods re-implemented structurally over `String.data`; the
frontmatter (document metadata) is an association list of keys to JavaScript-like
values; the varying pieces of plugin state (the settings object, the session
restoration set, the active editor view) are passed and returned explicitly.
-/

namespace LastEditLocation

/-- JavaScript `s.startsWith(p)`. -/
def strStartsWith (s p : String) : Bool :=
  List.isPrefixOf p.data s.data

/-- JavaScript `s.endsWith(p)`. -/
def strEndsWith (s p : String) : Bool :=
  List.isSuffixOf p.data s.data

/-- JavaScript `s.includes(c)` for a single-character needle `c`. -/
def strContainsChar (s : String) (c : Char) : Bool :=
  s.data.contains c

/-- JavaScript `s.substring(n)`: drop the first `n` characters. -/
def strDrop (s : String) (n : Nat) : String :=
  String.mk (s.data.drop n)

/-- JavaScript `s.length`. -/
def strLength (s : String) : Nat :=
  s.data.length

/-- JavaScript `s.slice(0, -n)`: drop the last `n` characters. -/
def strDropLast (s : String) (n : Nat) : String :=
  String.mk (s.data.take (s.data.length - n))

/-- JavaScript `s.trim()`: strip leading and trailing whitespace. -/
def strTrim (s : String) : String :=
  String.mk (((s.data.dropWhile Char.isWhitespace).reverse.dropWhile
    Char.isWhitespace).reverse)

/-- Split a character list at every occurrence of the separator `c`
(the separators are not kept; `n` consecutive separators yield `n + 1` pieces,
as JavaScript `split` does). -/
def splitCharList (c : Char) : List Char → List (List Char)
  | [] => [[]]
  | x :: xs =>
    match splitCharList c xs with
    | [] => [[]]
    | y :: ys => if x = c then [] :: y :: ys else (x :: y) :: ys

/-- JavaScript `s.split` at the newline character. -/
def strSplitNewline (s : String) : List String :=
  (splitCharList (Char.ofNat 10) s.data).map String.mk

/-- Decimal digit list of a natural number; the first argument is recursion fuel
(`n + 1` suffices for an input `n`). -/
def natDigits : Nat → Nat → List Char
  | 0, _ => []
  | fuel + 1, n =>
    if n < 10 then [Nat.digitChar n]
    else natDigits fuel (n / 10) ++ [Nat.digitChar (n % 10)]

/-- Decimal rendering of a natural number (model of the JavaScript
number-to-string coercion on naturals). -/
def natToString (n : Nat) : String :=
  String.mk (natDigits (n + 1) n)

/-- Decimal rendering of an integer (model of the JavaScript number-to-string
coercion `String(n)` for integral numbers). -/
def intToString : Int → String
  | Int.ofNat m => natToString m
  | Int.negSucc m => "-" ++ natToString (m + 1)

/-- The `identifierSource` field of the settings: `plugin-generated-UUID`,
`user-provided-field` or `file-path`. -/
inductive IdentifierSource where
  | pluginGeneratedUUID
  | userProvidedField
  | filePath
deriving DecidableEq

/-- A saved cursor position `{line, ch}`. -/
structure CursorPos where
  line : Nat
  ch : Nat
deriving DecidableEq

/-- The `LastEditLocationSettings` object persisted to `data.json`.
The `cursorPosition` record is embedded as an association list. -/
structure LastEditLocationSettings where
  identifierSource : IdentifierSource
  generatedIdName : String
  userProvidedIdName : String
  includedFolders : String
  restoringDelayTime : Nat
  cursorPosition : List (String × CursorPos)
deriving DecidableEq

/-- A JavaScript-like frontmatter value: the YAML scalars a frontmatter field can
hold (string, integral number, boolean, null). -/
inductive FmValue where
  | str (s : String)
  | num (n : Int)
  | bool (b : Bool)
  | null
deriving DecidableEq

/-- JavaScript truthiness of a frontmatter value (`if (frontmatter[idName])`). -/
def FmValue.truthy : FmValue → Bool
  | .str s => !(s == "")
  | .num n => !(n == 0)
  | .bool b => b
  | .null => false

/-- JavaScript string coercion `String(v)` of a frontmatter value. -/
def FmValue.jsString : FmValue → String
  | .str s => s
  | .num n => intToString n
  | .bool b => if b then "true" else "false"
  | .null => "null"

/-- A file of the vault: its path together with its frontmatter, embedded as an
association list of field names to values (a field is absent iff its name is not
a key of the list). -/
structure VaultFile where
  path : String
  frontmatter : List (String × FmValue)
deriving DecidableEq

/-- JavaScript property read `frontmatter[k]` on the frontmatter object. -/
def lookupFm : List (String × FmValue) → String → Option FmValue
  | [], _ => none
  | e :: rest, k => if e.1 == k then some e.2 else lookupFm rest k

/-- Truthiness of `frontmatter[k]` where an absent property (`undefined`) is
falsy. -/
def truthyLookup : Option FmValue → Bool
  | some v => v.truthy
  | none => false

/-- `String(frontmatter[k])`; an absent property coerces to `"undefined"`
(the source only coerces values it has already checked to be truthy). -/
def jsStringLookup : Option FmValue → String
  | some v => v.jsString
  | none => "undefined"

/-- JavaScript property write `frontmatter[k] = v`: overwrite the existing key
or append a new one. -/
def fmInsert (fm : List (String × FmValue)) (k : String) (v : FmValue) :
    List (String × FmValue) :=
  if fm.any (fun e => e.1 == k) then
    fm.map (fun e => if e.1 == k then (k, v) else e)
  else fm ++ [(k, v)]

/-- Embedding of `getCurrentIdName` (src/main.ts:361-368): the frontmatter field
name that is active for the configured identifier source; empty for the
`file-path` source. -/
def getCurrentIdName (s : LastEditLocationSettings) : String :=
  match s.identifierSource with
  | .pluginGeneratedUUID => s.generatedIdName
  | .userProvidedField => s.userProvidedIdName
  | .filePath => ""

/-- Embedding of `getUniqueIdentifier` (src/main.ts:377-406). The
`processFrontMatter` side effect is made explicit: the result is the returned
identifier string together with the possibly mutated file. `newUUID` stands for
the value `uuidv1()` would produce if the minting branch is reached. -/
def getUniqueIdentifier (s : LastEditLocationSettings) (file : VaultFile)
    (createIfMissing : Bool) (newUUID : String) : String × VaultFile :=
  if s.identifierSource = IdentifierSource.filePath then
    (file.path, file)
  else if getCurrentIdName s = "" then
    ("", file)
  else if truthyLookup (lookupFm file.frontmatter (getCurrentIdName s)) then
    (jsStringLookup (lookupFm file.frontmatter (getCurrentIdName s)), file)
  else if s.identifierSource = IdentifierSource.pluginGeneratedUUID ∧
      createIfMissing = true then
    (newUUID,
     { file with
        frontmatter := fmInsert file.frontmatter (getCurrentIdName s) (FmValue.str newUUID) })
  else
    ("", file)

/-- Embedding of the single-rule test inside the loop of `isFileIncluded`
(src/main.ts:277-294): does one trimmed, non-empty rule match the path. -/
def ruleMatches (path folder : String) : Bool :=
  if folder = "/" then
    !(strContainsChar path (Char.ofNat 47))
  else if strEndsWith folder "/*" then
    strStartsWith path (strDropLast folder 2 ++ "/")
  else
    strStartsWith path (folder ++ "/") &&
      !(strContainsChar (strDrop path (strLength folder + 1)) (Char.ofNat 47))

/-- The rule list derived from the raw `includedFolders` string
(src/main.ts:269): split on newlines, trim each entry, discard blanks. -/
def parseIncludedFolders (raw : String) : List String :=
  ((strSplitNewline raw).map strTrim).filter (fun f => !(f == ""))

/-- Embedding of `isFileIncluded` (src/main.ts:267-297); only the path of the file is
consulted. -/
def isFileIncluded (s : LastEditLocationSettings) (path : String) : Bool :=
  if (parseIncludedFolders s.includedFolders).length = 0 then false
  else if (parseIncludedFolders s.includedFolders).contains "/*" then true
  else (parseIncludedFolders s.includedFolders).any (fun folder => ruleMatches path folder)

/-- Association-list read of the `cursorPosition` record
(`this.settings.cursorPosition[uniqueIdentifier]`). -/
def lookupPos : List (String × CursorPos) → String → Option CursorPos
  | [], _ => none
  | e :: rest, k => if e.1 == k then some e.2 else lookupPos rest k

/-- Association-list write of the `cursorPosition` record
(`this.settings.cursorPosition[uniqueIdentifier] = {line, ch}`): overwrite the
existing key or append a new one. -/
def setPos (table : List (String × CursorPos)) (k : String) (p : CursorPos) :
    List (String × CursorPos) :=
  if table.any (fun e => e.1 == k) then
    table.map (fun e => if e.1 == k then (k, p) else e)
  else table ++ [(k, p)]

/-- Embedding of `saveLastEditLocation` (src/main.ts:304-323). `cursor` is the
current editor cursor (`editor.getCursor()`); the result is the updated
settings together with the possibly mutated file (the identifier resolution runs
with `createIfMissing = true`). -/
def saveLastEditLocation (s : LastEditLocationSettings) (cursor : CursorPos)
    (file : Option VaultFile) (newUUID : String) :
    LastEditLocationSettings × Option VaultFile :=
  match file with
  | none => (s, none)
  | some f =>
    if !(isFileIncluded s f.path) then (s, some f)
    else if (getUniqueIdentifier s f true newUUID).1 = "" then
      (s, some (getUniqueIdentifier s f true newUUID).2)
    else
      ({ s with
          cursorPosition :=
            setPos s.cursorPosition (getUniqueIdentifier s f true newUUID).1 cursor },
       some (getUniqueIdentifier s f true newUUID).2)

/-- The relevant observable state of the active markdown editor: the index of
its last line, its cursor, and the line last scrolled to the vertical center of
the view (if any). -/
structure EditorState where
  lastLine : Nat
  cursor : CursorPos
  scrollCenterLine : Option Nat
deriving DecidableEq

/-- JavaScript `Set.add` on the session restoration set
(`this.hasBeenRestoredInCurrentSession.add(uniqueIdentifier)`). -/
def addSession (session : List String) (uid : String) : List String :=
  if session.contains uid then session else session ++ [uid]

/-- Embedding of the cursor application inside the timeout callback of
`restoreLastEditLocation` (src/main.ts:340-349): when a position was saved and an
active markdown view exists at fire time (`view` is `none` otherwise), and the
saved line still lies within the document, set the cursor there and scroll that
line to the vertical center; in every other case leave the view untouched. -/
def restoreView (savedPosition : Option CursorPos) (view : Option EditorState) :
    Option EditorState :=
  match savedPosition, view with
  | some p, some ed =>
    if p.line ≤ ed.lastLine then
      some { ed with cursor := p, scrollCenterLine := some p.line }
    else some ed
  | _, v => v

/-- Embedding of the timeout callback of `restoreLastEditLocation`
(src/main.ts:330-355), continued: settings are untouched, the view is updated
per `restoreView`, and the identifier is marked restored regardless of whether a
position was found or applied. -/
def restoreLastEditLocation (s : LastEditLocationSettings) (session : List String)
    (view : Option EditorState) (uniqueIdentifier : String) :
    LastEditLocationSettings × Option EditorState × List String :=
  (s, restoreView (lookupPos s.cursorPosition uniqueIdentifier) view,
   addSession session uniqueIdentifier)

/-- Embedding of `shouldRestoreCursor` (src/main.ts:231-244). The result is the
identifier to restore (or `none`) together with the file after the
`createIfMissing = false` identifier resolution. -/
def shouldRestoreCursor (s : LastEditLocationSettings) (session : List String)
    (file : Option VaultFile) : Option String × Option VaultFile :=
  match file with
  | none => (none, none)
  | some f =>
    if !(isFileIncluded s f.path) then (none, some f)
    else if (getUniqueIdentifier s f false "").1 = "" ∨
        session.contains (getUniqueIdentifier s f false "").1 = true then
      (none, some (getUniqueIdentifier s f false "").2)
    else
      (some (getUniqueIdentifier s f false "").1, some (getUniqueIdentifier s f false "").2)

/-- Embedding of the `file-open` event handler (src/main.ts:194-201):
`shouldRestoreCursor` followed, when it yields a truthy identifier, by
`restoreLastEditLocation`. -/
def handleFileOpen (s : LastEditLocationSettings) (session : List String)
    (view : Option EditorState) (file : Option VaultFile) :
    LastEditLocationSettings × Option EditorState × List String :=
  match (shouldRestoreCursor s session file).1 with
  | some uid =>
    if uid = "" then (s, view, session)
    else restoreLastEditLocation s session view uid
  | none => (s, view, session)

/-- Embedding of the loop body of step 1 of the cleanup button handler
(src/main.ts:592-605): the contribution of one enumerated file to the set of
valid identifiers. The JavaScript `Set` is embedded as a list queried only
through `contains`; the metadata cache is assumed to report the current
frontmatter of each file. -/
def cleanupAdd (s : LastEditLocationSettings) (validIdentifiers : List String)
    (file : VaultFile) : List String :=
  if isFileIncluded s file.path then
    if s.identifierSource = IdentifierSource.filePath then
      validIdentifiers ++ [file.path]
    else if getCurrentIdName s = "" then validIdentifiers
    else if truthyLookup (lookupFm file.frontmatter (getCurrentIdName s)) then
      validIdentifiers ++ [jsStringLookup (lookupFm file.frontmatter (getCurrentIdName s))]
    else validIdentifiers
  else validIdentifiers

/-- Embedding of step 1 of the cleanup button handler, continued: fold
`cleanupAdd` over all enumerated files, starting from the empty set. -/
def cleanupValidIdentifiers (s : LastEditLocationSettings)
    (allFiles : List VaultFile) : List String :=
  allFiles.foldl (cleanupAdd s) []

/-- JavaScript `delete table[k]` on the `cursorPosition` record. -/
def eraseKey (table : List (String × CursorPos)) (k : String) :
    List (String × CursorPos) :=
  table.filter (fun e => !(e.1 == k))

/-- Embedding of the loop body of step 2 of the cleanup button handler
(src/main.ts:611-618): a saved identifier absent from the valid set is deleted
from the table and counted. -/
def cleanupStep (validIdentifiers : List String)
    (acc : List (String × CursorPos) × Nat) (savedId : String) :
    List (String × CursorPos) × Nat :=
  if validIdentifiers.contains savedId then acc
  else (eraseKey acc.1 savedId, acc.2 + 1)

/-- Embedding of step 2 of the cleanup button handler (src/main.ts:607-618):
walk the snapshot of the saved keys (`Object.keys`), deleting every stale entry
and counting the deletions. -/
def cleanupFold (s : LastEditLocationSettings) (allFiles : List VaultFile) :
    List (String × CursorPos) × Nat :=
  (s.cursorPosition.map (fun e => e.1)).foldl
    (cleanupStep (cleanupValidIdentifiers s allFiles)) (s.cursorPosition, 0)

/-- Embedding of the whole cleanup button handler (src/main.ts:583-626, minus
UI): the result is the updated settings together with `cleanedCount`. -/
def cleanupRun (s : LastEditLocationSettings) (allFiles : List VaultFile) :
    LastEditLocationSettings × Nat :=
  ({ s with cursorPosition := (cleanupFold s allFiles).1 }, (cleanupFold s allFiles).2)

/-- Spec-side predicate (from the words of the cleanup specification): `k` is a
non-empty identifier that some enumerable file, in scope per `isFileIncluded`,
currently resolves to under the active strategy without creating. -/
def currentlyResolvable (s : LastEditLocationSettings) (files : List VaultFile)
    (k : String) : Bool :=
  !(k == "") && files.any (fun f =>
    isFileIncluded s f.path && ((getUniqueIdentifier s f false "").1 == k))

/-- The contribution of one enumerated file to the cleanup valid-identifier set,
as an `Option`: a reformulation of `cleanupAdd` used to characterise the fold
(proved equal to it in `cleanupAdd_eq`). -/
def cleanupContribution (s : LastEditLocationSettings) (f : VaultFile) :
    Option String :=
  if isFileIncluded s f.path then
    if s.identifierSource = IdentifierSource.filePath then some f.path
    else if getCurrentIdName s = "" then none
    else if truthyLookup (lookupFm f.frontmatter (getCurrentIdName s)) then
      some (jsStringLookup (lookupFm f.frontmatter (getCurrentIdName s)))
    else none
  else none

/-! ## Helper lemmas -/

theorem getUniqueIdentifier_false_frame (s : LastEditLocationSettings)
    (f : VaultFile) (u : String) : (getUniqueIdentifier s f false u).2 = f := by
  unfold getUniqueIdentifier
  split_ifs with h1 h2 h3 h4
  · rfl
  · rfl
  · rfl
  · exact absurd h4.2 (by simp)
  · rfl

theorem shouldRestoreCursor_frame (s : LastEditLocationSettings)
    (session : List String) (file : Option VaultFile) :
    (shouldRestoreCursor s session file).2 = file := by
  cases file with
  | none => rfl
  | some f =>
    simp only [shouldRestoreCursor]
    split_ifs <;> simp [getUniqueIdentifier_false_frame]

/-! ## Claim theorems -/

/-- C6: if the raw included-folders string yields an empty rule list after
splitting on newlines, trimming, and discarding blank entries, then
`isFileIncluded` returns false for every path. -/
theorem C6_empty_rule_list_inactive (s : LastEditLocationSettings) (path : String)
    (h : parseIncludedFolders s.includedFolders = []) :
    isFileIncluded s path = false := by
  unfold isFileIncluded
  rw [h]
  rfl

/-- Witness for C6 at the default raw string `""` (which parses to no rules) and
a root-level path. -/
theorem C6_empty_rule_list_inactive_witness :
    parseIncludedFolders "" = [] ∧
    isFileIncluded
      { identifierSource := IdentifierSource.filePath, generatedIdName := "",
        userProvidedIdName := "", includedFolders := "",
        restoringDelayTime := 50, cursorPosition := [] } "a.md" = false :=
  ⟨by decide, C6_empty_rule_list_inactive _ "a.md" (by decide)⟩

/-- C5: whenever the parsed rule list contains the all-wildcard token `/*`,
`isFileIncluded` returns true for every path, regardless of the other rules. -/
theorem C5_wildcard_includes_all (s : LastEditLocationSettings) (path : String)
    (h : (parseIncludedFolders s.includedFolders).contains "/*" = true) :
    isFileIncluded s path = true := by
  unfold isFileIncluded
  have hne : ¬ (parseIncludedFolders s.includedFolders).length = 0 := by
    intro h0
    rw [List.length_eq_zero] at h0
    rw [h0] at h
    simp [List.contains] at h
  rw [if_neg hne, if_pos h]

/-- Witness for C5: a rule list with the wildcard in second position includes a
deeply nested path. -/
theorem C5_wildcard_includes_all_witness :
    (parseIncludedFolders "Folder\n/*").contains "/*" = true ∧
    isFileIncluded
      { identifierSource := IdentifierSource.filePath, generatedIdName := "",
        userProvidedIdName := "", includedFolders := "Folder\n/*",
        restoringDelayTime := 50, cursorPosition := [] } "x/y/z.md" = true :=
  ⟨by decide, C5_wildcard_includes_all _ "x/y/z.md" (by decide)⟩

/-- C4: with the single exact-folder rule `Folder`, a path is included exactly
when it starts with `Folder/` and the remainder contains no further separator;
in particular `Folder/a.md` is included while `Folder/sub/a.md` and
`Folder2/a.md` are not. -/
theorem C4_exact_folder_direct_children (s : LastEditLocationSettings)
    (path : String) (h : s.includedFolders = "Folder") :
    isFileIncluded s path =
      (strStartsWith path "Folder/" &&
        !(strContainsChar (strDrop path 7) (Char.ofNat 47))) ∧
    isFileIncluded s "Folder/a.md" = true ∧
    isFileIncluded s "Folder/sub/a.md" = false ∧
    isFileIncluded s "Folder2/a.md" = false := by
  refine ⟨?_, ?_, ?_, ?_⟩
  · unfold isFileIncluded
    rw [h, show parseIncludedFolders "Folder" = ["Folder"] from by decide]
    rw [if_neg (by decide), if_neg (by decide)]
    simp only [List.any_cons, List.any_nil, Bool.or_false]
    unfold ruleMatches
    rw [if_neg (by decide), if_neg (by decide)]
    rw [show ("Folder" ++ "/" : String) = "Folder/" from by decide,
      show strLength "Folder" + 1 = 7 from by decide]
  all_goals (unfold isFileIncluded; rw [h]; decide)

/-- Witness for C4 at a fully concrete settings record and path. -/
theorem C4_exact_folder_direct_children_witness :
    isFileIncluded
      { identifierSource := IdentifierSource.filePath, generatedIdName := "",
        userProvidedIdName := "", includedFolders := "Folder",
        restoringDelayTime := 50, cursorPosition := [] } "Folder/x.md" =
      (strStartsWith "Folder/x.md" "Folder/" &&
        !(strContainsChar (strDrop "Folder/x.md" 7) (Char.ofNat 47))) ∧
    isFileIncluded
      { identifierSource := IdentifierSource.filePath, generatedIdName := "",
        userProvidedIdName := "", includedFolders := "Folder",
        restoringDelayTime := 50, cursorPosition := [] } "Folder/a.md" = true ∧
    isFileIncluded
      { identifierSource := IdentifierSource.filePath, generatedIdName := "",
        userProvidedIdName := "", includedFolders := "Folder",
        restoringDelayTime := 50, cursorPosition := [] } "Folder/sub/a.md" = false ∧
    isFileIncluded
      { identifierSource := IdentifierSource.filePath, generatedIdName := "",
        userProvidedIdName := "", includedFolders := "Folder",
        restoringDelayTime := 50, cursorPosition := [] } "Folder2/a.md" = false :=
  C4_exact_folder_direct_children _ "Folder/x.md" rfl

/-- C2: resolving an identifier with `createIfMissing = false` never changes the
document (for every strategy and field configuration), and the document-open
path (`shouldRestoreCursor`), which always resolves with
`createIfMissing = false`, likewise leaves the document unchanged. -/
theorem C2_open_path_never_writes (s : LastEditLocationSettings) (f : VaultFile)
    (u : String) (session : List String) (file : Option VaultFile) :
    (getUniqueIdentifier s f false u).2 = f ∧
    (shouldRestoreCursor s session file).2 = file :=
  ⟨getUniqueIdentifier_false_frame s f u, shouldRestoreCursor_frame s session file⟩

/-- C7: when the saved line exceeds the last line of the document, the
restoration attempt leaves the editor untouched (no cursor move, no scroll),
leaves the settings (hence the stale table entry) in place, and still marks the
identifier as restored. -/
theorem C7_stale_position_skipped (s : LastEditLocationSettings)
    (session : List String) (uid : String) (ed : EditorState) (p : CursorPos)
    (h1 : lookupPos s.cursorPosition uid = some p) (h2 : ed.lastLine < p.line) :
    restoreLastEditLocation s session (some ed) uid =
      (s, some ed, addSession session uid) := by
  unfold restoreLastEditLocation
  rw [h1]
  simp only [restoreView]
  rw [if_neg (Nat.not_le.mpr h2)]

/-- Witness for C7: position `{line := 100, ch := 0}` saved for a document whose
last line index is now `9` (a 10-line document). -/
theorem C7_stale_position_skipped_witness :
    restoreLastEditLocation
      { identifierSource := IdentifierSource.filePath, generatedIdName := "",
        userProvidedIdName := "", includedFolders := "/*",
        restoringDelayTime := 50, cursorPosition := [("note.md", ⟨100, 0⟩)] }
      [] (some ⟨9, ⟨0, 0⟩, none⟩) "note.md" =
      ({ identifierSource := IdentifierSource.filePath, generatedIdName := "",
         userProvidedIdName := "", includedFolders := "/*",
         restoringDelayTime := 50, cursorPosition := [("note.md", ⟨100, 0⟩)] },
       some ⟨9, ⟨0, 0⟩, none⟩, addSession [] "note.md") :=
  C7_stale_position_skipped _ [] "note.md" ⟨9, ⟨0, 0⟩, none⟩ ⟨100, 0⟩
    (by decide) (by decide)

/-- C1, counterexample: under the user-provided-field strategy with field name
`created`, a document whose metadata contains `created` with the value `false`
is claimed to yield the coerced string `"false"`, but `getUniqueIdentifier`
returns the empty string (the source tests JavaScript truthiness, not
presence). -/
theorem C1_counterexample :
    lookupFm [("created", FmValue.bool false)] "created" =
      some (FmValue.bool false) ∧
    FmValue.jsString (FmValue.bool false) = "false" ∧
    getUniqueIdentifier
      { identifierSource := IdentifierSource.userProvidedField,
        generatedIdName := "", userProvidedIdName := "created",
        includedFolders := "/*", restoringDelayTime := 50, cursorPosition := [] }
      { path := "note.md", frontmatter := [("created", FmValue.bool false)] }
      false "" =
      ("", { path := "note.md", frontmatter := [("created", FmValue.bool false)] }) ∧
    ¬ ("" = "false") := by
  refine ⟨by decide, by decide, by decide, by decide⟩

/-- C1, amended: under the user-provided-field strategy with a non-empty field
name, `getUniqueIdentifier` never mutates the document, and returns the
value of the configured field coerced to string when the field is present with a
truthy value, and the empty string when the field is absent or holds a falsy
value (empty string, zero, `false`, null). -/
theorem C1_user_field_truthy_amended (s : LastEditLocationSettings)
    (f : VaultFile) (cim : Bool) (u : String)
    (h1 : s.identifierSource = IdentifierSource.userProvidedField)
    (h2 : ¬ s.userProvidedIdName = "") :
    getUniqueIdentifier s f cim u =
      (match lookupFm f.frontmatter s.userProvidedIdName with
       | some v => if v.truthy = true then v.jsString else ""
       | none => "", f) := by
  have hsrc : ¬ s.identifierSource = IdentifierSource.filePath := by
    rw [h1]; decide
  have hgen : ¬ s.identifierSource = IdentifierSource.pluginGeneratedUUID := by
    rw [h1]; decide
  have hid : getCurrentIdName s = s.userProvidedIdName := by
    unfold getCurrentIdName; rw [h1]
  unfold getUniqueIdentifier
  rw [if_neg hsrc, hid, if_neg h2]
  cases hlk : lookupFm f.frontmatter s.userProvidedIdName with
  | none =>
    rw [if_neg (by simp [truthyLookup]), if_neg (fun hc => hgen hc.1)]
  | some v =>
    by_cases htr : v.truthy = true
    · rw [if_pos (by simp [truthyLookup, htr])]
      simp [jsStringLookup, htr]
    · rw [if_neg (by simp [truthyLookup]; simp at htr; exact htr),
        if_neg (fun hc => hgen hc.1)]
      simp [htr]

/-- Witness for the amended C1: a truthy string-valued field is returned
verbatim without mutating the document. -/
theorem C1_user_field_truthy_amended_witness :
    getUniqueIdentifier
      { identifierSource := IdentifierSource.userProvidedField,
        generatedIdName := "", userProvidedIdName := "created",
        includedFolders := "/*", restoringDelayTime := 50, cursorPosition := [] }
      { path := "note.md", frontmatter := [("created", FmValue.str "2020-01-01")] }
      false "" =
      (match lookupFm [("created", FmValue.str "2020-01-01")] "created" with
       | some v => if v.truthy = true then v.jsString else ""
       | none => "",
       { path := "note.md", frontmatter := [("created", FmValue.str "2020-01-01")] }) :=
  C1_user_field_truthy_amended _ _ false "" rfl (by decide)

theorem addSession_contains_self (session : List String) (uid : String) :
    (addSession session uid).contains uid = true := by
  unfold addSession
  split_ifs with h
  · exact h
  · simp [List.contains]

theorem addSession_contains_other (session : List String) (uid v : String)
    (hv : ¬ v = uid) : (addSession session uid).contains v = session.contains v := by
  unfold addSession
  split_ifs with h
  · rfl
  · rw [Bool.eq_iff_iff]
    simp [List.contains, hv]

/-- C8: after a restoration attempt for an identifier (whether or not a position
was found), the identifier is in the session restoration set, every later open
of a document resolving to that identifier is a no-op, and membership of any
distinct identifier is unaffected. -/
theorem C8_at_most_one_restoration (s : LastEditLocationSettings)
    (session : List String) (view view2 : Option EditorState) (uid v : String)
    (f : VaultFile)
    (hf : (getUniqueIdentifier s f false "").1 = uid)
    (hv : ¬ v = uid) :
    (restoreLastEditLocation s session view uid).2.2.contains uid = true ∧
    handleFileOpen s (restoreLastEditLocation s session view uid).2.2 view2 (some f) =
      (s, view2, (restoreLastEditLocation s session view uid).2.2) ∧
    (restoreLastEditLocation s session view uid).2.2.contains v = session.contains v := by
  have hsess : (restoreLastEditLocation s session view uid).2.2 =
      addSession session uid := rfl
  rw [hsess]
  refine ⟨addSession_contains_self session uid, ?_,
    addSession_contains_other session uid v hv⟩
  unfold handleFileOpen
  have hnone : (shouldRestoreCursor s (addSession session uid) (some f)).1 = none := by
    simp only [shouldRestoreCursor]
    split_ifs with h1 h2
    · rfl
    · rfl
    · exact absurd
        (Or.inr (by rw [hf]; exact addSession_contains_self session uid)) h2
  rw [hnone]

/-- Witness for C8 under the file-path strategy: after restoring `a.md`, a
second open of `a.md` is a no-op and `b.md` is unaffected. -/
theorem C8_at_most_one_restoration_witness :
    (restoreLastEditLocation
      { identifierSource := IdentifierSource.filePath, generatedIdName := "",
        userProvidedIdName := "", includedFolders := "/*",
        restoringDelayTime := 50, cursorPosition := [("a.md", ⟨3, 1⟩)] }
      [] none "a.md").2.2.contains "a.md" = true ∧
    handleFileOpen
      { identifierSource := IdentifierSource.filePath, generatedIdName := "",
        userProvidedIdName := "", includedFolders := "/*",
        restoringDelayTime := 50, cursorPosition := [("a.md", ⟨3, 1⟩)] }
      (restoreLastEditLocation
        { identifierSource := IdentifierSource.filePath, generatedIdName := "",
          userProvidedIdName := "", includedFolders := "/*",
          restoringDelayTime := 50, cursorPosition := [("a.md", ⟨3, 1⟩)] }
        [] none "a.md").2.2 none (some { path := "a.md", frontmatter := [] }) =
      ({ identifierSource := IdentifierSource.filePath, generatedIdName := "",
         userProvidedIdName := "", includedFolders := "/*",
         restoringDelayTime := 50, cursorPosition := [("a.md", ⟨3, 1⟩)] },
       none,
       (restoreLastEditLocation
         { identifierSource := IdentifierSource.filePath, generatedIdName := "",
           userProvidedIdName := "", includedFolders := "/*",
           restoringDelayTime := 50, cursorPosition := [("a.md", ⟨3, 1⟩)] }
         [] none "a.md").2.2) ∧
    (restoreLastEditLocation
      { identifierSource := IdentifierSource.filePath, generatedIdName := "",
        userProvidedIdName := "", includedFolders := "/*",
        restoringDelayTime := 50, cursorPosition := [("a.md", ⟨3, 1⟩)] }
      [] none "a.md").2.2.contains "b.md" = ([] : List String).contains "b.md" :=
  C8_at_most_one_restoration _ [] none none "a.md" "b.md"
    { path := "a.md", frontmatter := [] } (by decide) (by decide)

theorem lookup_map_update_self (t : List (String × CursorPos)) (k : String)
    (p : CursorPos) (hany : t.any (fun e => e.1 == k) = true) :
    lookupPos (t.map (fun e => if e.1 == k then (k, p) else e)) k = some p := by
  induction t with
  | nil => simp at hany
  | cons e rest ih =>
    simp only [List.any_cons] at hany
    simp only [List.map_cons, lookupPos]
    by_cases he : (e.1 == k) = true
    · rw [if_pos he]
      simp
    · rw [if_neg he, if_neg he]
      simp only [Bool.not_eq_true] at he
      rw [he] at hany
      simp only [Bool.false_or] at hany
      exact ih hany

theorem lookup_map_update_ne (t : List (String × CursorPos)) (k1 k2 : String)
    (p : CursorPos) (h : ¬ k2 = k1) :
    lookupPos (t.map (fun e => if e.1 == k1 then (k1, p) else e)) k2 =
      lookupPos t k2 := by
  induction t with
  | nil => rfl
  | cons e rest ih =>
    have hk12 : (k1 == k2) = false :=
      beq_eq_false_iff_ne.mpr (fun hh => h hh.symm)
    simp only [List.map_cons, lookupPos]
    by_cases he : (e.1 == k1) = true
    · rw [if_pos he]
      have he2 : (e.1 == k2) = false := by rw [eq_of_beq he]; exact hk12
      rw [if_neg (by simp [hk12]), if_neg (by simp [he2])]
      exact ih
    · rw [if_neg he]
      by_cases h2 : (e.1 == k2) = true
      · rw [if_pos h2, if_pos h2]
      · rw [if_neg h2, if_neg h2]
        exact ih

theorem lookup_append_right_of_not_any (t : List (String × CursorPos))
    (k : String) (hany : t.any (fun e => e.1 == k) = false)
    (l : List (String × CursorPos)) :
    lookupPos (t ++ l) k = lookupPos l k := by
  induction t with
  | nil => rfl
  | cons e rest ih =>
    simp only [List.any_cons, Bool.or_eq_false_iff] at hany
    simp only [List.cons_append, lookupPos]
    rw [if_neg (by simp [hany.1])]
    exact ih hany.2

theorem lookupPos_setPos_self (t : List (String × CursorPos)) (k : String)
    (p : CursorPos) : lookupPos (setPos t k p) k = some p := by
  unfold setPos
  split_ifs with hany
  · exact lookup_map_update_self t k p hany
  · simp only [Bool.not_eq_true] at hany
    rw [lookup_append_right_of_not_any t k hany [(k, p)]]
    simp [lookupPos]

theorem lookup_append (t l : List (String × CursorPos)) (k : String) :
    lookupPos (t ++ l) k =
      match lookupPos t k with
      | some v => some v
      | none => lookupPos l k := by
  induction t with
  | nil => rfl
  | cons e rest ih =>
    simp only [List.cons_append, lookupPos]
    by_cases he : (e.1 == k) = true
    · rw [if_pos he, if_pos he]
    · rw [if_neg he, if_neg he]
      exact ih

theorem lookupPos_setPos_ne (t : List (String × CursorPos)) (k1 k2 : String)
    (p : CursorPos) (h : ¬ k2 = k1) :
    lookupPos (setPos t k1 p) k2 = lookupPos t k2 := by
  unfold setPos
  split_ifs with hany
  · exact lookup_map_update_ne t k1 k2 p h
  · rw [lookup_append t [(k1, p)] k2]
    have hnone : lookupPos [(k1, p)] k2 = none := by
      simp [lookupPos, beq_eq_false_iff_ne.mpr (fun hh => h hh.symm)]
    rw [hnone]
    cases lookupPos t k2 <;> rfl

/-- C9: the edit-path save touches the settings only at the `cursorPosition`
entry keyed by the resolved identifier, which it sets to the current
editor cursor; every other table entry and every other settings field is unchanged. -/
theorem C9_save_frame (s : LastEditLocationSettings) (cursor : CursorPos)
    (f : VaultFile) (u k : String)
    (hk : ¬ k = (getUniqueIdentifier s f true u).1) :
    (saveLastEditLocation s cursor (some f) u).1.identifierSource = s.identifierSource ∧
    (saveLastEditLocation s cursor (some f) u).1.generatedIdName = s.generatedIdName ∧
    (saveLastEditLocation s cursor (some f) u).1.userProvidedIdName = s.userProvidedIdName ∧
    (saveLastEditLocation s cursor (some f) u).1.includedFolders = s.includedFolders ∧
    (saveLastEditLocation s cursor (some f) u).1.restoringDelayTime = s.restoringDelayTime ∧
    lookupPos (saveLastEditLocation s cursor (some f) u).1.cursorPosition k =
      lookupPos s.cursorPosition k ∧
    (isFileIncluded s f.path = true → ¬ (getUniqueIdentifier s f true u).1 = "" →
      lookupPos (saveLastEditLocation s cursor (some f) u).1.cursorPosition
        (getUniqueIdentifier s f true u).1 = some cursor) := by
  simp only [saveLastEditLocation]
  split_ifs with h1 h2
  · refine ⟨rfl, rfl, rfl, rfl, rfl, rfl, ?_⟩
    intro hinc _
    rw [hinc] at h1
    simp at h1
  · refine ⟨rfl, rfl, rfl, rfl, rfl, rfl, ?_⟩
    intro _ hne
    exact absurd h2 hne
  · exact ⟨rfl, rfl, rfl, rfl, rfl,
      lookupPos_setPos_ne _ _ _ _ hk,
      fun _ _ => lookupPos_setPos_self _ _ _⟩

/-- Witness for C9 under the file-path strategy: saving for `n.md` overwrites
only its own entry; the entry of `old.md` is untouched. -/
theorem C9_save_frame_witness :
    (lookupPos (saveLastEditLocation
      { identifierSource := IdentifierSource.filePath, generatedIdName := "",
        userProvidedIdName := "", includedFolders := "/*",
        restoringDelayTime := 50, cursorPosition := [("old.md", ⟨9, 9⟩)] }
      ⟨4, 2⟩ (some { path := "n.md", frontmatter := [] }) "x").1.cursorPosition
      "old.md" =
      lookupPos [("old.md", (⟨9, 9⟩ : CursorPos))] "old.md") ∧
    lookupPos (saveLastEditLocation
      { identifierSource := IdentifierSource.filePath, generatedIdName := "",
        userProvidedIdName := "", includedFolders := "/*",
        restoringDelayTime := 50, cursorPosition := [("old.md", ⟨9, 9⟩)] }
      ⟨4, 2⟩ (some { path := "n.md", frontmatter := [] }) "x").1.cursorPosition
      "n.md" = some ⟨4, 2⟩ :=
  ⟨((C9_save_frame _ ⟨4, 2⟩ { path := "n.md", frontmatter := [] } "x" "old.md"
      (by decide)).2.2.2.2.2).1,
    (C9_save_frame _ ⟨4, 2⟩ { path := "n.md", frontmatter := [] } "x" "old.md"
      (by decide)).2.2.2.2.2.2 (by decide) (by decide)⟩

theorem cleanupStep_foldl (valid ks : List String)
    (t : List (String × CursorPos)) (n : Nat) :
    List.foldl (cleanupStep valid) (t, n) ks =
      (t.filter (fun e => valid.contains e.1 || !(ks.contains e.1)),
       n + (ks.filter (fun x => !(valid.contains x))).length) := by
  induction ks generalizing t n with
  | nil =>
    simp only [List.foldl_nil, List.filter_nil, List.length_nil, Nat.add_zero]
    rw [List.filter_eq_self.mpr (fun a _ => by simp [List.contains])]
  | cons x ks ih =>
    rw [List.foldl_cons]
    by_cases hk : valid.contains x = true
    · have hkm : x ∈ valid := by simpa [List.contains] using hk
      rw [show cleanupStep valid (t, n) x = (t, n) from by
        unfold cleanupStep; rw [if_pos hk]]
      rw [ih]
      have hfil : t.filter (fun e => valid.contains e.1 || !(ks.contains e.1)) =
          t.filter (fun e => valid.contains e.1 || !((x :: ks).contains e.1)) := by
        apply List.filter_congr
        intro e _
        by_cases hex : (e.1 == x) = true
        · rw [eq_of_beq hex, hk]
          simp
        · have hne : ¬ e.1 = x := fun hh => hex (by simp [hh])
          simp [List.contains_cons, hne]
      rw [hfil, List.filter_cons_of_neg (by simp [hkm])]
    · have hkm : x ∉ valid := by simpa [List.contains] using hk
      rw [show cleanupStep valid (t, n) x = (eraseKey t x, n + 1) from by
        unfold cleanupStep; rw [if_neg hk]]
      rw [ih]
      have hkf : valid.contains x = false := by simpa using hk
      rw [Prod.mk.injEq]
      refine ⟨?_, ?_⟩
      · unfold eraseKey
        rw [List.filter_filter]
        apply List.filter_congr
        intro e _
        by_cases hex : (e.1 == x) = true
        · have hx : e.1 = x := eq_of_beq hex
          simp [List.contains_cons, hex, hx, hkm]
        · have hne : ¬ e.1 = x := fun hh => hex (by simp [hh])
          simp [List.contains_cons, hex, hne]
      · rw [List.filter_cons_of_pos (by simp [hkm])]
        simp only [List.length_cons]
        omega

theorem cleanupFold_spec (s : LastEditLocationSettings) (files : List VaultFile) :
    cleanupFold s files =
      (s.cursorPosition.filter
        (fun e => (cleanupValidIdentifiers s files).contains e.1),
       (s.cursorPosition.filter
        (fun e => !((cleanupValidIdentifiers s files).contains e.1))).length) := by
  unfold cleanupFold
  rw [cleanupStep_foldl, Prod.mk.injEq]
  refine ⟨?_, ?_⟩
  · apply List.filter_congr
    intro e he
    have hmem : (s.cursorPosition.map (fun e => e.1)).contains e.1 = true := by
      simp only [List.elem_eq_mem, decide_eq_true_eq, List.contains]
      exact List.mem_map.mpr ⟨e, he, rfl⟩
    rw [hmem]
    simp
  · rw [List.filter_map, List.length_map, Nat.zero_add]
    rfl

theorem cleanupAdd_eq (s : LastEditLocationSettings) (acc : List String)
    (f : VaultFile) :
    cleanupAdd s acc f = acc ++ (cleanupContribution s f).toList := by
  unfold cleanupAdd cleanupContribution
  split_ifs <;> simp [Option.toList]

theorem cleanupValidIdentifiers_eq (s : LastEditLocationSettings)
    (files : List VaultFile) :
    cleanupValidIdentifiers s files = files.filterMap (cleanupContribution s) := by
  unfold cleanupValidIdentifiers
  suffices h : ∀ acc, List.foldl (cleanupAdd s) acc files =
      acc ++ files.filterMap (cleanupContribution s) by
    simpa using h []
  intro acc
  induction files generalizing acc with
  | nil => simp
  | cons f fs ih =>
    rw [List.foldl_cons, cleanupAdd_eq s acc f, List.filterMap_cons]
    cases hc : cleanupContribution s f with
    | none => simp [Option.toList, ih]
    | some v =>
      rw [ih]
      simp [Option.toList]

theorem cleanupAdd_id_of_empty_idName (s : LastEditLocationSettings)
    (h1 : ¬ s.identifierSource = IdentifierSource.filePath)
    (h2 : getCurrentIdName s = "") (acc : List String) (f : VaultFile) :
    cleanupAdd s acc f = acc := by
  unfold cleanupAdd
  split_ifs <;> rfl

theorem cleanupValidIdentifiers_empty (s : LastEditLocationSettings)
    (files : List VaultFile)
    (h1 : ¬ s.identifierSource = IdentifierSource.filePath)
    (h2 : getCurrentIdName s = "") :
    cleanupValidIdentifiers s files = [] := by
  unfold cleanupValidIdentifiers
  suffices h : ∀ acc, List.foldl (cleanupAdd s) acc files = acc from h []
  intro acc
  induction files generalizing acc with
  | nil => rfl
  | cons f fs ih =>
    rw [List.foldl_cons, cleanupAdd_id_of_empty_idName s h1 h2 acc f]
    exact ih acc

/-- C10: under a frontmatter-based strategy whose active ID field name is empty,
cleanup finds no valid identifier, so it deletes every entry of the table and
reports the previous number of entries as the removed count. -/
theorem C10_cleanup_empty_idName_deletes_all (s : LastEditLocationSettings)
    (files : List VaultFile)
    (h1 : ¬ s.identifierSource = IdentifierSource.filePath)
    (h2 : getCurrentIdName s = "") :
    cleanupRun s files = ({ s with cursorPosition := [] }, s.cursorPosition.length) := by
  unfold cleanupRun
  rw [cleanupFold_spec, cleanupValidIdentifiers_empty s files h1 h2]
  rw [Prod.mk.injEq]
  refine ⟨?_, ?_⟩
  · have hnil : s.cursorPosition.filter
        (fun e => ([] : List String).contains e.1) = [] := by
      simp [List.contains]
    rw [hnil]
  · have hall : s.cursorPosition.filter
        (fun e => !(([] : List String).contains e.1)) = s.cursorPosition :=
      List.filter_eq_self.mpr (fun a _ => by simp [List.contains])
    rw [hall]

/-- Witness for C10: generated-UUID strategy with an empty `generatedIdName`
wipes a two-entry table and reports `2`. -/
theorem C10_cleanup_empty_idName_deletes_all_witness :
    cleanupRun
      { identifierSource := IdentifierSource.pluginGeneratedUUID,
        generatedIdName := "", userProvidedIdName := "xyz",
        includedFolders := "/*", restoringDelayTime := 50,
        cursorPosition := [("A", ⟨1, 0⟩), ("B", ⟨2, 0⟩)] }
      [{ path := "A", frontmatter := [] }] =
      ({ identifierSource := IdentifierSource.pluginGeneratedUUID,
         generatedIdName := "", userProvidedIdName := "xyz",
         includedFolders := "/*", restoringDelayTime := 50,
         cursorPosition := [] },
       ([("A", (⟨1, 0⟩ : CursorPos)), ("B", ⟨2, 0⟩)] : List (String × CursorPos)).length) :=
  C10_cleanup_empty_idName_deletes_all _ [{ path := "A", frontmatter := [] }]
    (by decide) (by decide)

theorem natDigits_ne_nil (n : Nat) : ¬ natDigits (n + 1) n = [] := by
  simp only [natDigits]
  split_ifs with h
  · simp
  · simp

theorem natToString_ne_empty (n : Nat) : ¬ natToString n = "" := by
  intro h
  exact natDigits_ne_nil n (congrArg String.data h)

theorem intToString_ne_empty (n : Int) : ¬ intToString n = "" := by
  cases n with
  | ofNat m => exact natToString_ne_empty m
  | negSucc m =>
    intro h
    have hd := congrArg String.data h
    simp only [intToString, String.data_append, List.append_eq_nil] at hd
    exact absurd hd.1 (by decide)

theorem truthy_jsString_ne_empty (v : FmValue) (h : v.truthy = true) :
    ¬ v.jsString = "" := by
  cases v with
  | str s =>
    simp only [FmValue.truthy] at h
    simp only [FmValue.jsString]
    simpa using h
  | num n =>
    intro hh
    exact intToString_ne_empty n hh
  | bool b =>
    cases b with
    | false => exact absurd h (by decide)
    | true => decide
  | null => exact absurd h (by decide)

theorem cleanupValid_contains_eq (s : LastEditLocationSettings)
    (files : List VaultFile) (k : String)
    (hpaths : ∀ f ∈ files, ¬ f.path = "") :
    (cleanupValidIdentifiers s files).contains k = currentlyResolvable s files k := by
  rw [cleanupValidIdentifiers_eq, Bool.eq_iff_iff]
  unfold currentlyResolvable
  rw [Bool.and_eq_true]
  constructor
  · intro hc
    have hk : k ∈ files.filterMap (cleanupContribution s) := by
      simpa [List.contains] using hc
    rw [List.mem_filterMap] at hk
    obtain ⟨f, hf, hcf⟩ := hk
    unfold cleanupContribution at hcf
    by_cases hinc : isFileIncluded s f.path = true
    case neg => rw [if_neg hinc] at hcf; exact absurd hcf (by simp)
    rw [if_pos hinc] at hcf
    by_cases hsrc : s.identifierSource = IdentifierSource.filePath
    · rw [if_pos hsrc] at hcf
      have hk2 : f.path = k := Option.some.inj hcf
      refine ⟨?_, ?_⟩
      · rw [← hk2]
        simpa using hpaths f hf
      · rw [List.any_eq_true]
        refine ⟨f, ⟨hf, ?_⟩⟩
        rw [Bool.and_eq_true]
        refine ⟨hinc, ?_⟩
        unfold getUniqueIdentifier
        rw [if_pos hsrc]
        simpa using hk2
    · rw [if_neg hsrc] at hcf
      by_cases hid : getCurrentIdName s = ""
      · rw [if_pos hid] at hcf
        exact absurd hcf (by simp)
      rw [if_neg hid] at hcf
      by_cases htr : truthyLookup (lookupFm f.frontmatter (getCurrentIdName s)) = true
      case neg => rw [if_neg htr] at hcf; exact absurd hcf (by simp)
      rw [if_pos htr] at hcf
      have hk2 := Option.some.inj hcf
      refine ⟨?_, ?_⟩
      · rw [← hk2]
        cases hlk : lookupFm f.frontmatter (getCurrentIdName s) with
        | none =>
          rw [hlk] at htr
          exact absurd htr (by simp [truthyLookup])
        | some v =>
          rw [hlk] at htr
          simp only [jsStringLookup]
          have hne := truthy_jsString_ne_empty v (by simpa [truthyLookup] using htr)
          simpa using hne
      · rw [List.any_eq_true]
        refine ⟨f, ⟨hf, ?_⟩⟩
        rw [Bool.and_eq_true]
        refine ⟨hinc, ?_⟩
        unfold getUniqueIdentifier
        rw [if_neg hsrc, if_neg hid, if_pos htr]
        simpa using hk2
  · rintro ⟨hkne, hany⟩
    rw [List.any_eq_true] at hany
    obtain ⟨f, hf, hfa⟩ := hany
    rw [Bool.and_eq_true] at hfa
    obtain ⟨hinc, hres⟩ := hfa
    have hres2 : (getUniqueIdentifier s f false "").1 = k := eq_of_beq hres
    have hcf : cleanupContribution s f = some k := by
      unfold cleanupContribution
      rw [if_pos hinc]
      unfold getUniqueIdentifier at hres2
      by_cases hsrc : s.identifierSource = IdentifierSource.filePath
      · rw [if_pos hsrc]
        rw [if_pos hsrc] at hres2
        simp only [] at hres2
        rw [hres2]
      · rw [if_neg hsrc]
        rw [if_neg hsrc] at hres2
        by_cases hid : getCurrentIdName s = ""
        · rw [if_pos hid] at hres2
          simp only [] at hres2
          rw [← hres2] at hkne
          simp at hkne
        · rw [if_neg hid]
          rw [if_neg hid] at hres2
          by_cases htr : truthyLookup (lookupFm f.frontmatter (getCurrentIdName s)) = true
          · rw [if_pos htr]
            rw [if_pos htr] at hres2
            simp only [] at hres2
            rw [hres2]
          · rw [if_neg htr] at hres2
            rw [if_neg htr]
            rw [if_neg (by intro hcond; exact absurd hcond.2 (by decide))] at hres2
            simp only [] at hres2
            rw [← hres2] at hkne
            simp at hkne
    have hmem : k ∈ files.filterMap (cleanupContribution s) :=
      List.mem_filterMap.mpr ⟨f, ⟨hf, hcf⟩⟩
    simpa [List.contains] using hmem

/-- C3: cleanup deletes exactly the table entries whose key is not currently
resolvable from an in-scope enumerated document (leaving every other entry
unchanged, in order), and reports the number of removed entries; the hypothesis
excludes the degenerate empty file path, which cannot occur in a vault. -/
theorem C3_cleanup_removes_exactly_stale (s : LastEditLocationSettings)
    (files : List VaultFile) (hpaths : ∀ f ∈ files, ¬ f.path = "") :
    (cleanupRun s files).1.cursorPosition =
      s.cursorPosition.filter (fun e => currentlyResolvable s files e.1) ∧
    (cleanupRun s files).2 =
      (s.cursorPosition.filter (fun e => !(currentlyResolvable s files e.1))).length := by
  unfold cleanupRun
  rw [cleanupFold_spec]
  refine ⟨?_, ?_⟩
  · simp only []
    apply List.filter_congr
    intro e _
    exact cleanupValid_contains_eq s files e.1 hpaths
  · simp only []
    apply congrArg List.length
    apply List.filter_congr
    intro e _
    rw [cleanupValid_contains_eq s files e.1 hpaths]

/-- Witness for C3, the specified scenario: stored identifiers `A`, `B`, `C`
with only `A` and `B` resolvable (file-path strategy, vault containing `A` and
`B`); cleanup removes exactly `C` and reports count `1`. -/
theorem C3_cleanup_removes_exactly_stale_witness :
    (∀ f ∈ ([{ path := "A", frontmatter := [] },
             { path := "B", frontmatter := [] }] : List VaultFile),
      ¬ f.path = "") ∧
    ((cleanupRun
      { identifierSource := IdentifierSource.filePath, generatedIdName := "",
        userProvidedIdName := "", includedFolders := "/*",
        restoringDelayTime := 50,
        cursorPosition := [("A", ⟨1, 0⟩), ("B", ⟨2, 0⟩), ("C", ⟨3, 0⟩)] }
      [{ path := "A", frontmatter := [] }, { path := "B", frontmatter := [] }]).1.cursorPosition =
      List.filter
        (fun e => currentlyResolvable
          { identifierSource := IdentifierSource.filePath, generatedIdName := "",
            userProvidedIdName := "", includedFolders := "/*",
            restoringDelayTime := 50,
            cursorPosition := [("A", ⟨1, 0⟩), ("B", ⟨2, 0⟩), ("C", ⟨3, 0⟩)] }
          [{ path := "A", frontmatter := [] }, { path := "B", frontmatter := [] }] e.1)
        ([("A", ⟨1, 0⟩), ("B", ⟨2, 0⟩), ("C", ⟨3, 0⟩)] : List (String × CursorPos)) ∧
     (cleanupRun
      { identifierSource := IdentifierSource.filePath, generatedIdName := "",
        userProvidedIdName := "", includedFolders := "/*",
        restoringDelayTime := 50,
        cursorPosition := [("A", ⟨1, 0⟩), ("B", ⟨2, 0⟩), ("C", ⟨3, 0⟩)] }
      [{ path := "A", frontmatter := [] }, { path := "B", frontmatter := [] }]).2 =
      (List.filter
        (fun e => !(currentlyResolvable
          { identifierSource := IdentifierSource.filePath, generatedIdName := "",
            userProvidedIdName := "", includedFolders := "/*",
            restoringDelayTime := 50,
            cursorPosition := [("A", ⟨1, 0⟩), ("B", ⟨2, 0⟩), ("C", ⟨3, 0⟩)] }
          [{ path := "A", frontmatter := [] }, { path := "B", frontmatter := [] }] e.1))
        ([("A", ⟨1, 0⟩), ("B", ⟨2, 0⟩), ("C", ⟨3, 0⟩)] : List (String × CursorPos))).length) ∧
    cleanupRun
      { identifierSource := IdentifierSource.filePath, generatedIdName := "",
        userProvidedIdName := "", includedFolders := "/*",
        restoringDelayTime := 50,
        cursorPosition := [("A", ⟨1, 0⟩), ("B", ⟨2, 0⟩), ("C", ⟨3, 0⟩)] }
      [{ path := "A", frontmatter := [] }, { path := "B", frontmatter := [] }] =
      ({ identifierSource := IdentifierSource.filePath, generatedIdName := "",
         userProvidedIdName := "", includedFolders := "/*",
         restoringDelayTime := 50,
         cursorPosition := [("A", ⟨1, 0⟩), ("B", ⟨2, 0⟩)] }, 1) :=
  ⟨by decide, C3_cleanup_removes_exactly_stale _ _ (by decide), by decide⟩

end LastEditLocation
